import Mathlib

/-!
Shallow embedding of the dependency-resolution engine of this repository
(`depends/scripts/resolve_utils.py` and `depends/scripts/resolve.py`).

The engine is stateful only through the filesystem and through child
processes; both are modelled explicitly.  A `World` carries the set of
existing filesystem paths together with oracles for the outcome of the
external operations (exit codes of shell commands, success of an HTTP
download, well-formedness of an archive's content).  Every operation the
engine performs on the outside world is recorded as an `Action`, and every
line printed is recorded in a log, so that the frame and temporal claims
about the engine can be stated as facts about the produced traces.
-/

set_option maxHeartbeats 1000000

namespace AsioSrt

/-- Models `os.path.join` for the (relative) second components this program
joins; the program never joins an absolute second component. -/
def joinPath (a b : String) : String := a ++ "/" ++ b

/-- Stand-in for `g_project_path`, the directory two levels above the
script (derived in the source from `__file__`). -/
def g_project_path : String := "project"

/-- Models `g_pkg_path = os.path.join(g_project_path, "depends/pkgs")`. -/
def g_pkg_path : String := joinPath g_project_path "depends/pkgs"

/-- Models `g_resolved_path = os.path.join(g_project_path, "depends/resolved")`. -/
def g_resolved_path : String := joinPath g_project_path "depends/resolved"

/-- Models `g_build_path = os.path.join(g_project_path, "depends/build")`. -/
def g_build_path : String := joinPath g_project_path "depends/build"

/-- The empty string (bound to a name so string literals stay in definitions). -/
def noStr : String := ""

/-- Python truthiness of an optional string: `None` and `""` are falsy. -/
def truthyStr : Option String → Bool
  | none => false
  | some s => !(s == noStr)

/-- Python truthiness of an optional list: `None` and `[]` are falsy. -/
def truthyList : Option (List String) → Bool
  | none => false
  | some l => !l.isEmpty

/-- The `Dependency` object of `resolve_utils.py`: the constructor arguments
together with the three derived paths computed in `__init__`. -/
structure Dependency where
  pkg_name : String
  version : Option String
  pkg_file : Option String
  build_command : String
  check_files : Option (List String)
  http_download_url : Option String
  git_source_url : Option String
  src_dir : String
  dest_dir : String
  pkg_path : Option String
deriving DecidableEq

/-- Models the body of `Dependency.__init__` once both required positional
arguments have been supplied: stores the fields and computes
`src_dir`, `dest_dir` and `pkg_path` (the latter is `None` when
`pkg_file` is falsy). -/
def initDependency (n b : String) (version pkg_file : Option String)
    (check_files : Option (List String))
    (http_download_url git_source_url : Option String) : Dependency :=
  { pkg_name := n
    version := version
    pkg_file := pkg_file
    build_command := b
    check_files := check_files
    http_download_url := http_download_url
    git_source_url := git_source_url
    src_dir := joinPath g_build_path n
    dest_dir := joinPath g_resolved_path n
    pkg_path := if truthyStr pkg_file then some (joinPath g_pkg_path (pkg_file.getD noStr)) else none }

/-- The keyword arguments of one entry of the `libs` list of `resolve.py`;
every key may be absent. -/
structure Kwargs where
  pkg_name : Option String
  build_command : Option String
  version : Option String
  pkg_file : Option String
  check_files : Option (List String)
  http_download_url : Option String
  git_source_url : Option String
deriving DecidableEq

/-- The only Python exception kind this embedding needs: the `TypeError`
raised when a required positional argument is missing, or when
`os.path.exists` is applied to `None`. -/
inductive PyError where
  | typeError
deriving DecidableEq

/-- Models `Dependency(**kwargs)`: Python raises `TypeError` when one of the
required positional arguments `pkg_name`, `build_command` is not supplied;
it performs no validation of the supplied values. -/
def mkDependency (k : Kwargs) : Except PyError Dependency :=
  match k.pkg_name, k.build_command with
  | some n, some b =>
      Except.ok (initDependency n b k.version k.pkg_file k.check_files
        k.http_download_url k.git_source_url)
  | _, _ => Except.error PyError.typeError

/-- The outside world: the set of existing filesystem paths, plus oracles for
the outcome of external operations (`run` is the exit code
`subprocess.run(cmd, shell=True)` would produce, `downloadOk` whether
`urlretrieve` of a URL succeeds, `extractOk` whether the archive content at
a path is extractable). -/
structure World where
  fs : List String
  run : String → Nat
  downloadOk : String → Bool
  extractOk : String → Bool

/-- Models `os.path.exists` on a string path. -/
def pathExists (w : World) (p : String) : Bool := w.fs.contains p

/-- Models `os.path.exists` as applied by `resolve()` to `self.pkg_path`,
which may be `None`: `os.path.exists(None)` raises `TypeError`. -/
def pathExistsPy (w : World) : Option String → Except PyError Bool
  | none => Except.error PyError.typeError
  | some p => Except.ok (pathExists w p)

/-- Models `os.makedirs(p, exist_ok=True)`: afterwards `p` exists. -/
def mkdirs (w : World) (p : String) : World := { w with fs := p :: w.fs }

/-- The archive formats dispatched by `Dependency._uncompress`. -/
inductive Fmt where
  | gz
  | xz
  | zip
  | bz2
deriving DecidableEq

/-- One observable operation performed by the engine on the outside world.
A `build` action records the shell command, its working directory and the
dictionary passed to `env.update` on top of the copied ambient environment. -/
inductive Action where
  | makedirs (path : String)
  | download (url : String) (dest : String)
  | extract (archive : String) (fmt : Fmt) (dest : String)
  | clone (url : String) (dest : String)
  | build (cmd : String) (cwd : String) (envUpd : List (String × String))
deriving DecidableEq

/-- Whether an action is a build-command execution. -/
def Action.isBuild : Action → Bool
  | Action.build _ _ _ => true
  | _ => false

/-- Whether an action is an HTTP download. -/
def Action.isDownload : Action → Bool
  | Action.download _ _ => true
  | _ => false

/-- Whether an action is an archive extraction. -/
def Action.isExtract : Action → Bool
  | Action.extract _ _ _ => true
  | _ => false

/-- Whether an action is a git clone. -/
def Action.isClone : Action → Bool
  | Action.clone _ _ => true
  | _ => false

/-- Whether a trace contains a build-command execution. -/
def hasBuild (l : List Action) : Bool := l.any Action.isBuild

/-- Models Python `str.endswith` for a single suffix. -/
def pyEndsWith (s suf : String) : Bool := suf.data.isSuffixOf s.data

/-- The archive suffix `".tar.gz"`. -/
def sufTarGz : String := ".tar.gz"

/-- The archive suffix `".tgz"`. -/
def sufTgz : String := ".tgz"

/-- The archive suffix `".tar.xz"`. -/
def sufTarXz : String := ".tar.xz"

/-- The archive suffix `".zip"`. -/
def sufZip : String := ".zip"

/-- The archive suffix `".tar.bz2"`. -/
def sufTarBz2 : String := ".tar.bz2"

/-- The archive suffix `".tbz2"`. -/
def sufTbz2 : String := ".tbz2"

/-- The suffix dispatch of `Dependency._uncompress`, with the branches in
source order: gzip tar, xz tar, zip, bzip2 tar, otherwise unsupported. -/
def detectFmt (p : String) : Option Fmt :=
  if pyEndsWith p sufTarGz || pyEndsWith p sufTgz then some Fmt.gz
  else if pyEndsWith p sufTarXz then some Fmt.xz
  else if pyEndsWith p sufZip then some Fmt.zip
  else if pyEndsWith p sufTarBz2 || pyEndsWith p sufTbz2 then some Fmt.bz2
  else none

/-- The log line `[name] Check file exists: path`. -/
def checkFileMsg (n p : String) : String := "[" ++ n ++ "] Check file exists: " ++ p

/-- The log line `[name] Skip building: all check files exist.` -/
def skipAllMsg (n : String) : String := "[" ++ n ++ "] Skip building: all check files exist."

/-- The log line `[name] Uncompressing src to dst`. -/
def uncompressMsg (n p d : String) : String :=
  "[" ++ n ++ "] Uncompressing " ++ p ++ " to " ++ d

/-- The log line `[name] Source file not found: path`. -/
def srcNotFoundMsg (n p : String) : String := "[" ++ n ++ "] Source file not found: " ++ p

/-- The log line `[name] Unsupported compression format for path`. -/
def unsupportedMsg (n p : String) : String :=
  "[" ++ n ++ "] Unsupported compression format for " ++ p

/-- The log line `[name] Failed to uncompress path` (the exception text is
not modelled). -/
def uncompressFailMsg (n p : String) : String := "[" ++ n ++ "] Failed to uncompress " ++ p

/-- The log line `[name] Building in dir...`. -/
def buildingMsg (n d : String) : String := "[" ++ n ++ "] Building in " ++ d ++ "..."

/-- The log line `[name] Command: cmd`. -/
def commandMsg (n c : String) : String := "[" ++ n ++ "] Command: " ++ c

/-- The log line `[name] Build successful.` -/
def buildOkMsg (n : String) : String := "[" ++ n ++ "] Build successful."

/-- The log line `[name] Build failed with exit code e`. -/
def buildFailMsg (n : String) (e : Nat) : String :=
  "[" ++ n ++ "] Build failed with exit code " ++ toString e

/-- The log line `[name] Downloading from url to path`. -/
def downloadMsg (n u p : String) : String :=
  "[" ++ n ++ "] Downloading from " ++ u ++ " to " ++ p

/-- The log line `[name] Download failed` (the exception text is not
modelled). -/
def downloadFailMsg (n : String) : String := "[" ++ n ++ "] Download failed"

/-- The log line `[name] Cloning from url to dir`. -/
def cloneMsg (n u d : String) : String := "[" ++ n ++ "] Cloning from " ++ u ++ " to " ++ d

/-- The log line `[name] Git clone successful.` -/
def cloneOkMsg (n : String) : String := "[" ++ n ++ "] Git clone successful."

/-- The log line `[name] Git clone failed with exit code e`. -/
def cloneFailMsg (n : String) (e : Nat) : String :=
  "[" ++ n ++ "] Git clone failed with exit code " ++ toString e

/-- The opening line of the per-package log bracket. -/
def startLine (n : String) : String :=
  "----------------- Resolving " ++ n ++ " -----------------"

/-- The closing line of the per-package log bracket (printed in the
`finally` block of `Dependency.resolve`). -/
def finishLine (n : String) : String :=
  "----------------- Finished resolving " ++ n ++ " -----------------"

/-- The outcome of one private step of the engine: the Python return value,
the world after the step, the lines printed and the actions performed. -/
structure StepR where
  ok : Bool
  w : World
  log : List String
  acts : List Action

/-- The per-file loop of `Dependency._can_skip` over the remaining check
files: stop with `False` at the first missing file, otherwise log each
existing file and finish with `True`. -/
def canSkipLoop (d : Dependency) (w : World) : List String → Bool × List String
  | [] => (true, [skipAllMsg d.pkg_name])
  | f :: fs =>
    let cp := joinPath d.dest_dir f
    if pathExists w cp then
      let r := canSkipLoop d w fs
      (r.1, checkFileMsg d.pkg_name cp :: r.2)
    else (false, [])

/-- Models `Dependency._can_skip`. -/
def canSkip (d : Dependency) (w : World) : Bool × List String :=
  if !truthyList d.check_files then (false, [])
  else if !pathExists w d.dest_dir then (false, [])
  else canSkipLoop d w (d.check_files.getD [])

/-- The boolean returned by `Dependency._can_skip`. -/
def canSkipB (d : Dependency) (w : World) : Bool := (canSkip d w).1

/-- Models `Dependency._uncompress`.  The argument `p` is `self.pkg_path`,
which `resolve()` has already forced to be a string (a `None` value raises
before this method is reached). -/
def uncompress (d : Dependency) (p : String) (w : World) : StepR :=
  let l0 := [uncompressMsg d.pkg_name p d.src_dir]
  if !pathExists w p then
    { ok := false, w := w, log := l0 ++ [srcNotFoundMsg d.pkg_name p], acts := [] }
  else
    let w1 := mkdirs w d.src_dir
    match detectFmt p with
    | some f =>
      if w.extractOk p then
        { ok := true, w := w1, log := l0
          acts := [Action.makedirs d.src_dir, Action.extract p f d.src_dir] }
      else
        { ok := false, w := w1, log := l0 ++ [uncompressFailMsg d.pkg_name p]
          acts := [Action.makedirs d.src_dir, Action.extract p f d.src_dir] }
    | none =>
      { ok := false, w := w1, log := l0 ++ [unsupportedMsg d.pkg_name p]
        acts := [Action.makedirs d.src_dir] }

/-- The environment variable name `DST_PATH`. -/
def keyDst : String := "DST_PATH"

/-- The environment variable name `SRC_FILE_PATH`. -/
def keySrc : String := "SRC_FILE_PATH"

/-- The environment variable name `PKG_NAME`. -/
def keyPkg : String := "PKG_NAME"

/-- The environment variable name `RESOLVED_PATH`. -/
def keyResolved : String := "RESOLVED_PATH"

/-- The dictionary `Dependency._build` passes to `env.update` on top of the
copied ambient environment. -/
def injectedEnv (d : Dependency) : List (String × String) :=
  [(keyDst, d.dest_dir), (keySrc, d.src_dir), (keyPkg, d.pkg_name),
    (keyResolved, g_resolved_path)]

/-- The mapping that results from `env = base.copy(); env.update(upd)`. -/
def applyUpd (upd : List (String × String)) (base : String → Option String) :
    String → Option String :=
  fun k =>
    match upd.lookup k with
    | some v => some v
    | none => base k

/-- Models `Dependency._build`: create the destination directory, then run
the build command in `src_dir` with the injected environment; a non-zero
exit code is caught and reported as `False`. -/
def buildStep (d : Dependency) (w : World) : StepR :=
  let w1 := mkdirs w d.dest_dir
  let l0 := [buildingMsg d.pkg_name d.src_dir, commandMsg d.pkg_name d.build_command]
  let acts := [Action.makedirs d.dest_dir,
    Action.build d.build_command d.src_dir (injectedEnv d)]
  if w.run d.build_command == 0 then
    { ok := true, w := w1, log := l0 ++ [buildOkMsg d.pkg_name], acts := acts }
  else
    { ok := false, w := w1, log := l0 ++ [buildFailMsg d.pkg_name (w.run d.build_command)]
      acts := acts }

/-- Models `Dependency._download`.  The argument `p` is `self.pkg_path`,
which `resolve()` has already forced to be a string.  When
`http_download_url` is falsy the step is a no-op success; a successful
retrieval creates the file at `p`. -/
def download (d : Dependency) (p : String) (w : World) : StepR :=
  if !truthyStr d.http_download_url then
    { ok := true, w := w, log := [], acts := [] }
  else
    let url := d.http_download_url.getD noStr
    let w1 := mkdirs w g_pkg_path
    if w.downloadOk url then
      { ok := true, w := { w1 with fs := p :: w1.fs }
        log := [downloadMsg d.pkg_name url p]
        acts := [Action.makedirs g_pkg_path, Action.download url p] }
    else
      { ok := false, w := w1
        log := [downloadMsg d.pkg_name url p, downloadFailMsg d.pkg_name]
        acts := [Action.makedirs g_pkg_path, Action.download url p] }

/-- The shell command built by `Dependency._git_clone`. -/
def cloneCmd (d : Dependency) : String :=
  "git clone " ++ d.git_source_url.getD noStr ++ " " ++ d.src_dir

/-- Models `Dependency._git_clone`: a no-op success when `git_source_url` is
falsy, otherwise run `git clone` under `g_build_path`; a non-zero exit code
is caught and reported as `False`; a successful clone creates `src_dir`. -/
def gitClone (d : Dependency) (w : World) : StepR :=
  if !truthyStr d.git_source_url then
    { ok := true, w := w, log := [], acts := [] }
  else
    let url := d.git_source_url.getD noStr
    let w1 := mkdirs w g_build_path
    if w.run (cloneCmd d) == 0 then
      { ok := true, w := { w1 with fs := d.src_dir :: w1.fs }
        log := [cloneMsg d.pkg_name url d.src_dir, cloneOkMsg d.pkg_name]
        acts := [Action.makedirs g_build_path, Action.clone url d.src_dir] }
    else
      { ok := false, w := w1
        log := [cloneMsg d.pkg_name url d.src_dir,
          cloneFailMsg d.pkg_name (w.run (cloneCmd d))]
        acts := [Action.makedirs g_build_path, Action.clone url d.src_dir] }

/-- The outcome of one call of `Dependency.resolve` (or of its `try` block):
the normal-or-exceptional result, the world afterwards, the lines printed
and the actions performed. -/
structure RunR where
  result : Except PyError Unit
  w : World
  log : List String
  acts : List Action

/-- The `try` block of `Dependency.resolve`: skip-check, then either the git
path or the download-and-extract path, then the build; each failing step
returns early.  On the archive path `os.path.exists(self.pkg_path)` raises
`TypeError` when `pkg_path` is `None`. -/
def Dependency.resolveBody (d : Dependency) (w : World) : RunR :=
  let sk := canSkip d w
  if sk.1 then { result := Except.ok (), w := w, log := sk.2, acts := [] }
  else if truthyStr d.git_source_url then
    let g := gitClone d w
    if !g.ok then { result := Except.ok (), w := g.w, log := sk.2 ++ g.log, acts := g.acts }
    else
      let b := buildStep d g.w
      { result := Except.ok (), w := b.w, log := sk.2 ++ g.log ++ b.log
        acts := g.acts ++ b.acts }
  else
    match d.pkg_path with
    | none => { result := Except.error PyError.typeError, w := w, log := sk.2, acts := [] }
    | some p =>
      let afterDl : StepR :=
        if !pathExists w p then download d p w
        else { ok := true, w := w, log := [], acts := [] }
      if !afterDl.ok then
        { result := Except.ok (), w := afterDl.w, log := sk.2 ++ afterDl.log
          acts := afterDl.acts }
      else
        let u := uncompress d p afterDl.w
        if !u.ok then
          { result := Except.ok (), w := u.w, log := sk.2 ++ afterDl.log ++ u.log
            acts := afterDl.acts ++ u.acts }
        else
          let b := buildStep d u.w
          { result := Except.ok (), w := b.w
            log := sk.2 ++ afterDl.log ++ u.log ++ b.log
            acts := afterDl.acts ++ u.acts ++ b.acts }

/-- Models `Dependency.resolve`: the opening print, the `try` block and the
`finally` print, which runs on every exit path, an escaping exception
included. -/
def Dependency.resolve (d : Dependency) (w : World) : RunR :=
  let b := Dependency.resolveBody d w
  { result := b.result, w := b.w
    log := startLine d.pkg_name :: (b.log ++ [finishLine d.pkg_name])
    acts := b.acts }

/-- The outcome of `resolve(**kwargs)` in `resolve_utils.py`: possibly a
construction failure before a `Dependency` exists, otherwise the outcome of
`Dependency.resolve`. -/
structure OneR where
  w : World
  out : Option RunR
  err : Option PyError

/-- Models the module-level function `resolve(**kwargs)`: construct the
`Dependency`, then resolve it; an exception from either phase is reported
in `err`. -/
def runOne (k : Kwargs) (w : World) : OneR :=
  match mkDependency k with
  | Except.error e => { w := w, out := none, err := some e }
  | Except.ok d =>
    let r := Dependency.resolve d w
    match r.result with
    | Except.ok _ => { w := r.w, out := some r, err := none }
    | Except.error e => { w := r.w, out := some r, err := some e }

/-- The outcome of the module-level loop of `resolve.py`: the worlds are
threaded through the packages in order, and an uncaught exception aborts
the remainder of the batch. -/
structure BatchR where
  w : World
  outs : List RunR
  err : Option PyError

/-- Models the module-level loop of `resolve.py`: strictly sequential, one
package at a time; an uncaught exception stops the loop with the remaining
packages unprocessed. -/
def runBatch : List Kwargs → World → BatchR
  | [], w => { w := w, outs := [], err := none }
  | k :: ks, w =>
    let s := runOne k w
    match s.err with
    | some e => { w := s.w, outs := s.out.toList, err := some e }
    | none =>
      let rest := runBatch ks s.w
      { w := rest.w, outs := s.out.toList ++ rest.outs, err := rest.err }

/-- A world in which the given paths exist and every external operation
succeeds. -/
def mkWorld (fs : List String) : World :=
  { fs := fs, run := fun _ => 0, downloadOk := fun _ => true, extractOk := fun _ => true }

/-- A sample package name. -/
def nameA : String := "alpha"

/-- A sample build command. -/
def cmdA : String := "make"

/-- A sample check file. -/
def fileLib : String := "lib/liba.a"

/-- A sample descriptor with one check file and no source reference. -/
def skipDep : Dependency := initDependency nameA cmdA none none (some [fileLib]) none none

/-- A world in which `skipDep`'s destination directory and check file exist. -/
def skipWorld : World := mkWorld [skipDep.dest_dir, joinPath skipDep.dest_dir fileLib]

/-- A sample git URL. -/
def urlB : String := "https://example.com/b.git"

/-- A second sample package name. -/
def nameB : String := "beta"

/-- A second sample build command. -/
def cmdB : String := "make b"

/-- A sample git-based descriptor. -/
def gitDep : Dependency := initDependency nameB cmdB none none none none (some urlB)

/-- A kwargs record supplying an empty build command and omitting every
optional field. -/
def kEmptyBuild : Kwargs :=
  { pkg_name := some nameA, build_command := some noStr, version := none, pkg_file := none,
    check_files := none, http_download_url := none, git_source_url := none }

/-- A kwargs record supplying all-empty optional fields and ordinary
required fields. -/
def kPlain : Kwargs :=
  { pkg_name := some nameB, build_command := some cmdB, version := none, pkg_file := none,
    check_files := none, http_download_url := none, git_source_url := none }

/-- An unsupported archive name. -/
def rarFile : String := "x.rar"

/-- A descriptor whose archive has an unsupported suffix. -/
def rarDep : Dependency := initDependency nameA cmdA none (some rarFile) none none none

/-- Whether a trace contains an HTTP download. -/
def hasDownload (l : List Action) : Bool := l.any Action.isDownload

/-- A kwargs record that names a package, a build command and at least one
source (a git URL or an archive file): the configurations for which the
engine's per-package failure handling is total. -/
def wellFormed (k : Kwargs) : Bool :=
  k.pkg_name.isSome && k.build_command.isSome &&
    (truthyStr k.git_source_url || truthyStr k.pkg_file)

/-- A world in which every shell command exits 1 (so clones and builds
fail) and every path is absent. -/
def wCloneFail : World :=
  { fs := [], run := fun _ => 1, downloadOk := fun _ => true, extractOk := fun _ => true }

/-- First sample batch package name. -/
def name1 : String := "p1"

/-- Second sample batch package name. -/
def name2 : String := "p2"

/-- Third sample batch package name. -/
def name3 : String := "p3"

/-- First sample batch build command. -/
def cmd1 : String := "b1"

/-- Second sample batch build command. -/
def cmd2 : String := "b2"

/-- Third sample batch build command. -/
def cmd3 : String := "b3"

/-- First sample batch git URL. -/
def url1 : String := "u1"

/-- Second sample batch git URL. -/
def url2 : String := "u2"

/-- Third sample batch git URL. -/
def url3 : String := "u3"

/-- A git-based kwargs record. -/
def kwG (n c u : String) : Kwargs :=
  { pkg_name := some n, build_command := some c, version := none, pkg_file := none,
    check_files := none, http_download_url := none, git_source_url := some u }

/-- A three-package batch of git-based descriptors. -/
def batch3 : List Kwargs := [kwG name1 cmd1 url1, kwG name2 cmd2 url2, kwG name3 cmd3 url3]

/-- A world in which exactly the second batch package's build command exits
non-zero and everything else succeeds. -/
def wBatch : World :=
  { fs := [], run := fun c => if c == cmd2 then 1 else 0
    downloadOk := fun _ => true, extractOk := fun _ => true }

/-- A kwargs record with no archive file name and no git URL. -/
def kNone : Kwargs :=
  { pkg_name := some nameA, build_command := some cmdA, version := none, pkg_file := none,
    check_files := none, http_download_url := none, git_source_url := none }

/-- The descriptor constructed from `kNone`: its `pkg_path` is `None`. -/
def depNone : Dependency := initDependency nameA cmdA none none none none none

/-- A supported archive name. -/
def tgzFile : String := "a.tar.gz"

/-- A sample download URL. -/
def urlA : String := "https://example.com/a.tar.gz"

/-- A sample archive-based descriptor with a supported archive name, a
download URL and no git URL. -/
def tgzDep : Dependency := initDependency nameA cmdA none (some tgzFile) none (some urlA) none

end AsioSrt

namespace AsioSrt

theorem canSkipLoop_spec (d : Dependency) (w : World) (l : List String) :
    (canSkipLoop d w l).1 = true ↔
      ∀ f ∈ l, pathExists w (joinPath d.dest_dir f) = true := by
  induction l with
  | nil => simp [canSkipLoop]
  | cons f fs ih =>
    by_cases h : pathExists w (joinPath d.dest_dir f)
    · simp [canSkipLoop, h, ih]
    · have hne : ¬ ∀ x ∈ f :: fs, pathExists w (joinPath d.dest_dir x) = true := by
        intro hall
        exact h (hall f (by simp))
      simp [canSkipLoop, h, hne]

theorem can_skip_iff_lemma (d : Dependency) (w : World) :
    canSkipB d w = true ↔
      (truthyList d.check_files = true ∧ pathExists w d.dest_dir = true ∧
        ∀ f ∈ d.check_files.getD [], pathExists w (joinPath d.dest_dir f) = true) := by
  unfold canSkipB canSkip
  by_cases h1 : truthyList d.check_files
  · by_cases h2 : pathExists w d.dest_dir
    · simp [h1, h2, canSkipLoop_spec]
    · simp [h1, h2]
  · simp [h1]

/-- C1: the skip-check returns true if and only if `check_files` is
non-empty, the destination directory exists, and every file listed in
`check_files` exists under the destination directory; consequently a single
missing file in `check_files` means the package is not skipped. -/
theorem can_skip_iff (d : Dependency) (w : World) :
    canSkipB d w = true ↔
      (truthyList d.check_files = true ∧ pathExists w d.dest_dir = true ∧
        ∀ f ∈ d.check_files.getD [], pathExists w (joinPath d.dest_dir f) = true) :=
  can_skip_iff_lemma d w

/-- Witness for C1: a concrete descriptor and world for which the skip-check
succeeds. -/
theorem can_skip_iff_witness : canSkipB skipDep skipWorld = true :=
  (can_skip_iff skipDep skipWorld).mpr (by decide)

theorem resolve_skip_lemma (d : Dependency) (w : World) (h : canSkipB d w = true) :
    (Dependency.resolve d w).acts = [] ∧ (Dependency.resolve d w).w = w ∧
      (Dependency.resolve d w).result = Except.ok () := by
  unfold Dependency.resolve Dependency.resolveBody
  unfold canSkipB at h
  simp [h]

/-- C2: when the skip-check succeeds, `resolve` performs no action at all
(no download, clone, extraction or build) and leaves the world unchanged;
in particular a second run on a descriptor whose first run produced all
check files (so that the skip-check succeeds in the resulting world)
performs zero acquisition or build actions. -/
theorem resolve_skip_frame (d : Dependency) (w : World) (h : canSkipB d w = true) :
    (Dependency.resolve d w).acts = [] ∧ (Dependency.resolve d w).w = w ∧
      (Dependency.resolve d w).result = Except.ok () :=
  resolve_skip_lemma d w h

/-- Witness for C2: the concrete skip scenario, with every hypothesis
evaluated. -/
theorem resolve_skip_frame_witness :
    (Dependency.resolve skipDep skipWorld).acts = [] ∧
      (Dependency.resolve skipDep skipWorld).w = skipWorld ∧
      (Dependency.resolve skipDep skipWorld).result = Except.ok () :=
  resolve_skip_frame skipDep skipWorld (by decide)

/-- C9: on every exit path of `resolve` (skip, acquisition failure, build
failure, build success, or an escaping exception) the log both starts with
the start line and ends with the finish line of the package's bracket. -/
theorem log_bracket (d : Dependency) (w : World) :
    (Dependency.resolve d w).log.head? = some (startLine d.pkg_name) ∧
    (Dependency.resolve d w).log.getLast? = some (finishLine d.pkg_name) := by
  unfold Dependency.resolve
  refine ⟨rfl, ?_⟩
  show (startLine d.pkg_name ::
    ((Dependency.resolveBody d w).log ++ [finishLine d.pkg_name])).getLast? = _
  rw [← List.cons_append, List.getLast?_concat]

/-- Counterexample to C10: constructing a descriptor with an empty (empty
string) `build_command` succeeds; the constructor performs no validation of
the supplied values. -/
theorem empty_build_command_accepted : (mkDependency kEmptyBuild).isOk = true := by decide

/-- C10 (amended): construction fails exactly when the `pkg_name` or the
`build_command` argument is absent; an empty `build_command` string is
accepted, and every field other than `pkg_name` and `build_command` may be
absent without construction failing. -/
theorem construction_requires_args (k : Kwargs) :
    (mkDependency k).isOk = true ↔
      (k.pkg_name.isSome = true ∧ k.build_command.isSome = true) := by
  cases hn : k.pkg_name <;> cases hb : k.build_command <;>
    simp [mkDependency, hn, hb, Except.isOk, Except.toBool]

/-- Witness for the amended C10: a concrete construction with all optional
fields absent succeeds. -/
theorem construction_requires_args_witness : (mkDependency kPlain).isOk = true :=
  (construction_requires_args kPlain).mpr (by decide)

theorem pyEndsWith_iff (s suf : String) : pyEndsWith s suf = true ↔ suf.data <:+ s.data := by
  unfold pyEndsWith
  rw [List.isSuffixOf_iff_suffix]

theorem suffix_total {α : Type} (a b : List α) :
    ∀ s : List α, a <:+ s → b <:+ s → a <:+ b ∨ b <:+ a := by
  intro s
  induction s with
  | nil =>
    intro ha hb
    left
    rw [List.suffix_nil.mp ha, List.suffix_nil.mp hb]
  | cons x t ih =>
    intro ha hb
    rcases List.suffix_cons_iff.mp ha with ha1 | ha2
    · right
      rw [ha1]
      exact hb
    · rcases List.suffix_cons_iff.mp hb with hb1 | hb2
      · left
        rw [hb1]
        exact ha
      · exact ih ha2 hb2

theorem endsWith_excl (p a b : String) (hab : decide (a.data <:+ b.data) = false)
    (hba : decide (b.data <:+ a.data) = false) (ha : pyEndsWith p a = true) :
    pyEndsWith p b = false := by
  cases hpb : pyEndsWith p b
  · rfl
  · exfalso
    have h1 := (pyEndsWith_iff p a).mp ha
    have h2 := (pyEndsWith_iff p b).mp hpb
    rcases suffix_total a.data b.data p.data h1 h2 with hc | hc
    · exact of_decide_eq_false hab hc
    · exact of_decide_eq_false hba hc

theorem hasBuild_append (a b : List Action) :
    hasBuild (a ++ b) = (hasBuild a || hasBuild b) := by
  simp [hasBuild]

theorem download_no_build (d : Dependency) (p : String) (w : World) :
    hasBuild (download d p w).acts = false := by
  by_cases h : truthyStr d.http_download_url
  · by_cases h2 : w.downloadOk (d.http_download_url.getD noStr)
    · simp [download, h, h2, hasBuild, Action.isBuild]
    · simp [download, h, h2, hasBuild, Action.isBuild]
  · simp [download, h, hasBuild]

theorem uncompress_no_build (d : Dependency) (p : String) (w : World) :
    hasBuild (uncompress d p w).acts = false := by
  by_cases h : pathExists w p
  · rcases hf : detectFmt p with _ | f
    · simp [uncompress, h, hf, hasBuild, Action.isBuild]
    · by_cases h2 : w.extractOk p
      · simp [uncompress, h, hf, h2, hasBuild, Action.isBuild]
      · simp [uncompress, h, hf, h2, hasBuild, Action.isBuild]
  · simp [uncompress, h, hasBuild]

theorem mem_of_hasBuild_false (l : List Action) (h : hasBuild l = false) :
    ∀ a ∈ l, a.isBuild = false := by
  intro a ha
  cases hb : a.isBuild
  · rfl
  · exfalso
    have ht : hasBuild l = true := by
      unfold hasBuild
      exact List.any_eq_true.mpr ⟨a, ha, hb⟩
    rw [ht] at h
    cases h

theorem mem_uncompress_not_build (d : Dependency) (p : String) (w : World) :
    ∀ a ∈ (uncompress d p w).acts, a.isBuild = false :=
  mem_of_hasBuild_false _ (uncompress_no_build d p w)

theorem mem_download_not_build (d : Dependency) (p : String) (w : World) :
    ∀ a ∈ (download d p w).acts, a.isBuild = false :=
  mem_of_hasBuild_false _ (download_no_build d p w)

theorem uncompress_unsupported_fail (d : Dependency) (p : String) (w : World)
    (hf : detectFmt p = none) : (uncompress d p w).ok = false := by
  by_cases h : pathExists w p
  · simp [uncompress, h, hf]
  · simp [uncompress, h]

theorem resolve_skip_eq (d : Dependency) (w : World) (h : canSkipB d w = true) :
    Dependency.resolve d w =
      { result := Except.ok (), w := w
        log := startLine d.pkg_name :: ((canSkip d w).2 ++ [finishLine d.pkg_name])
        acts := [] } := by
  unfold Dependency.resolve Dependency.resolveBody
  unfold canSkipB at h
  simp [h]

theorem resolve_none_eq (d : Dependency) (w : World) (hsk : canSkipB d w = false)
    (hg : truthyStr d.git_source_url = false) (hp : d.pkg_path = none) :
    Dependency.resolve d w =
      { result := Except.error PyError.typeError, w := w
        log := startLine d.pkg_name :: ((canSkip d w).2 ++ [finishLine d.pkg_name])
        acts := [] } := by
  unfold Dependency.resolve Dependency.resolveBody
  unfold canSkipB at hsk
  simp [hsk, hg, hp]

theorem resolve_git_eq (d : Dependency) (w : World) (hsk : canSkipB d w = false)
    (hg : truthyStr d.git_source_url = true) :
    Dependency.resolve d w =
      (let g := gitClone d w
      if !g.ok then
        { result := Except.ok (), w := g.w
          log := startLine d.pkg_name :: ((canSkip d w).2 ++ g.log ++ [finishLine d.pkg_name])
          acts := g.acts }
      else
        let b := buildStep d g.w
        { result := Except.ok (), w := b.w
          log := startLine d.pkg_name ::
            ((canSkip d w).2 ++ g.log ++ b.log ++ [finishLine d.pkg_name])
          acts := g.acts ++ b.acts }) := by
  unfold Dependency.resolve Dependency.resolveBody
  unfold canSkipB at hsk
  by_cases hok : (gitClone d w).ok
  · simp [hsk, hg, hok]
  · simp [hsk, hg, hok]

theorem resolve_archive_eq (d : Dependency) (w : World) (p : String)
    (hsk : canSkipB d w = false) (hg : truthyStr d.git_source_url = false)
    (hp : d.pkg_path = some p) :
    Dependency.resolve d w =
      (let afterDl : StepR :=
        if !pathExists w p then download d p w
        else { ok := true, w := w, log := [], acts := [] }
      if !afterDl.ok then
        { result := Except.ok (), w := afterDl.w
          log := startLine d.pkg_name ::
            ((canSkip d w).2 ++ afterDl.log ++ [finishLine d.pkg_name])
          acts := afterDl.acts }
      else
        let u := uncompress d p afterDl.w
        if !u.ok then
          { result := Except.ok (), w := u.w
            log := startLine d.pkg_name ::
              ((canSkip d w).2 ++ afterDl.log ++ u.log ++ [finishLine d.pkg_name])
            acts := afterDl.acts ++ u.acts }
        else
          let b := buildStep d u.w
          { result := Except.ok (), w := b.w
            log := startLine d.pkg_name ::
              ((canSkip d w).2 ++ afterDl.log ++ u.log ++ b.log ++ [finishLine d.pkg_name])
            acts := afterDl.acts ++ u.acts ++ b.acts }) := by
  unfold Dependency.resolve Dependency.resolveBody
  unfold canSkipB at hsk
  by_cases hex : pathExists w p
  · by_cases huok : (uncompress d p w).ok
    · simp [hsk, hg, hp, hex, huok]
    · simp [hsk, hg, hp, hex, huok]
  · by_cases hdok : (download d p w).ok
    · by_cases huok : (uncompress d p (download d p w).w).ok
      · simp [hsk, hg, hp, hex, hdok, huok]
      · simp [hsk, hg, hp, hex, hdok, huok]
    · simp [hsk, hg, hp, hex, hdok]

theorem detect_gz (p : String)
    (h : pyEndsWith p sufTarGz = true ∨ pyEndsWith p sufTgz = true) :
    detectFmt p = some Fmt.gz := by
  rcases h with h | h <;> simp [detectFmt, h]

theorem detect_xz (p : String) (h : pyEndsWith p sufTarXz = true) :
    detectFmt p = some Fmt.xz := by
  have h1 := endsWith_excl p sufTarXz sufTarGz (by decide) (by decide) h
  have h2 := endsWith_excl p sufTarXz sufTgz (by decide) (by decide) h
  simp [detectFmt, h, h1, h2]

theorem detect_zip (p : String) (h : pyEndsWith p sufZip = true) :
    detectFmt p = some Fmt.zip := by
  have h1 := endsWith_excl p sufZip sufTarGz (by decide) (by decide) h
  have h2 := endsWith_excl p sufZip sufTgz (by decide) (by decide) h
  have h3 := endsWith_excl p sufZip sufTarXz (by decide) (by decide) h
  simp [detectFmt, h, h1, h2, h3]

theorem detect_bz2 (p : String)
    (h : pyEndsWith p sufTarBz2 = true ∨ pyEndsWith p sufTbz2 = true) :
    detectFmt p = some Fmt.bz2 := by
  rcases h with h | h
  · have h1 := endsWith_excl p sufTarBz2 sufTarGz (by decide) (by decide) h
    have h2 := endsWith_excl p sufTarBz2 sufTgz (by decide) (by decide) h
    have h3 := endsWith_excl p sufTarBz2 sufTarXz (by decide) (by decide) h
    have h4 := endsWith_excl p sufTarBz2 sufZip (by decide) (by decide) h
    simp [detectFmt, h, h1, h2, h3, h4]
  · have h1 := endsWith_excl p sufTbz2 sufTarGz (by decide) (by decide) h
    have h2 := endsWith_excl p sufTbz2 sufTgz (by decide) (by decide) h
    have h3 := endsWith_excl p sufTbz2 sufTarXz (by decide) (by decide) h
    have h4 := endsWith_excl p sufTbz2 sufZip (by decide) (by decide) h
    simp [detectFmt, h, h1, h2, h3, h4]

theorem detect_none_iff (p : String) :
    detectFmt p = none ↔
      (pyEndsWith p sufTarGz = false ∧ pyEndsWith p sufTgz = false ∧
        pyEndsWith p sufTarXz = false ∧ pyEndsWith p sufZip = false ∧
        pyEndsWith p sufTarBz2 = false ∧ pyEndsWith p sufTbz2 = false) := by
  constructor
  · intro h
    refine ⟨?_, ?_, ?_, ?_, ?_, ?_⟩
    · cases h1 : pyEndsWith p sufTarGz
      · rfl
      · rw [detect_gz p (Or.inl h1)] at h
        exact absurd h (by simp)
    · cases h1 : pyEndsWith p sufTgz
      · rfl
      · rw [detect_gz p (Or.inr h1)] at h
        exact absurd h (by simp)
    · cases h1 : pyEndsWith p sufTarXz
      · rfl
      · rw [detect_xz p h1] at h
        exact absurd h (by simp)
    · cases h1 : pyEndsWith p sufZip
      · rfl
      · rw [detect_zip p h1] at h
        exact absurd h (by simp)
    · cases h1 : pyEndsWith p sufTarBz2
      · rfl
      · rw [detect_bz2 p (Or.inl h1)] at h
        exact absurd h (by simp)
    · cases h1 : pyEndsWith p sufTbz2
      · rfl
      · rw [detect_bz2 p (Or.inr h1)] at h
        exact absurd h (by simp)
  · rintro ⟨h1, h2, h3, h4, h5, h6⟩
    simp [detectFmt, h1, h2, h3, h4, h5, h6]

theorem unsupported_no_build (d : Dependency) (w : World) (p : String)
    (hp : d.pkg_path = some p) (hg : truthyStr d.git_source_url = false)
    (hnone : detectFmt p = none) :
    hasBuild (Dependency.resolve d w).acts = false := by
  cases hsk : canSkipB d w
  · rw [resolve_archive_eq d w p hsk hg hp]
    by_cases hex : pathExists w p
    · have hu := uncompress_unsupported_fail d p w hnone
      simp [hex, hu, hasBuild]
      exact mem_uncompress_not_build d p w
    · by_cases hdok : (download d p w).ok
      · have hu := uncompress_unsupported_fail d p (download d p w).w hnone
        simp [hex, hdok, hu, hasBuild]
        exact ⟨mem_download_not_build d p w,
          mem_uncompress_not_build d p (download d p w).w⟩
      · simp [hex, hdok, hasBuild]
        exact mem_download_not_build d p w
  · rw [resolve_skip_eq d w hsk]
    simp [hasBuild]

/-- C3: extraction selects the decompressor by filename suffix only, with
`.tar.gz`/`.tgz` routed to gzip tar, `.tar.xz` to xz tar, `.tar.bz2`/`.tbz2`
to bzip2 tar and `.zip` to zip; a filename whose suffix is outside this set
is dispatched to no decompressor, its extraction fails, and on such a
descriptor the build step is never invoked. -/
theorem uncompress_dispatch (p : String) :
    ((pyEndsWith p sufTarGz = true ∨ pyEndsWith p sufTgz = true) →
      detectFmt p = some Fmt.gz) ∧
    (pyEndsWith p sufTarXz = true → detectFmt p = some Fmt.xz) ∧
    ((pyEndsWith p sufTarBz2 = true ∨ pyEndsWith p sufTbz2 = true) →
      detectFmt p = some Fmt.bz2) ∧
    (pyEndsWith p sufZip = true → detectFmt p = some Fmt.zip) ∧
    (detectFmt p = none ↔
      (pyEndsWith p sufTarGz = false ∧ pyEndsWith p sufTgz = false ∧
        pyEndsWith p sufTarXz = false ∧ pyEndsWith p sufZip = false ∧
        pyEndsWith p sufTarBz2 = false ∧ pyEndsWith p sufTbz2 = false)) ∧
    (∀ (d : Dependency) (w : World), detectFmt p = none →
      (uncompress d p w).ok = false) ∧
    (∀ (d : Dependency) (w : World), d.pkg_path = some p →
      truthyStr d.git_source_url = false → detectFmt p = none →
      hasBuild (Dependency.resolve d w).acts = false) :=
  ⟨detect_gz p, detect_xz p, detect_bz2 p, detect_zip p, detect_none_iff p,
    fun d w h => uncompress_unsupported_fail d p w h,
    fun d w hp hg hn => unsupported_no_build d w p hp hg hn⟩

/-- Witness for C3: the `.rar` suffix is dispatched to no decompressor, its
extraction fails, and the build step is not invoked, at a concrete world in
which the archive file exists. -/
theorem uncompress_dispatch_witness :
    detectFmt (joinPath g_pkg_path rarFile) = none ∧
    (uncompress rarDep (joinPath g_pkg_path rarFile)
      (mkWorld [joinPath g_pkg_path rarFile])).ok = false ∧
    hasBuild (Dependency.resolve rarDep (mkWorld [joinPath g_pkg_path rarFile])).acts
      = false := by
  refine ⟨by decide, ?_, ?_⟩
  · exact (uncompress_dispatch (joinPath g_pkg_path rarFile)).2.2.2.2.2.1 rarDep
      (mkWorld [joinPath g_pkg_path rarFile]) (by decide)
  · exact (uncompress_dispatch (joinPath g_pkg_path rarFile)).2.2.2.2.2.2 rarDep
      (mkWorld [joinPath g_pkg_path rarFile]) (by decide) (by decide) (by decide)

theorem mem_gitClone_acts (d : Dependency) (w : World) :
    ∀ a ∈ (gitClone d w).acts,
      a = Action.makedirs g_build_path ∨
        a = Action.clone (d.git_source_url.getD noStr) d.src_dir := by
  intro a ha
  by_cases h : truthyStr d.git_source_url
  · by_cases h2 : (w.run (cloneCmd d) == 0) = true
    · simp [gitClone, h, h2] at ha
      rcases ha with ha | ha <;> simp [ha]
    · simp [gitClone, h, h2] at ha
      rcases ha with ha | ha <;> simp [ha]
  · simp [gitClone, h] at ha

theorem mem_buildStep_acts (d : Dependency) (w : World) :
    ∀ a ∈ (buildStep d w).acts,
      a = Action.makedirs d.dest_dir ∨
        a = Action.build d.build_command d.src_dir (injectedEnv d) := by
  intro a ha
  by_cases h : (w.run d.build_command == 0) = true
  · simp [buildStep, h] at ha
    rcases ha with ha | ha <;> simp [ha]
  · simp [buildStep, h] at ha
    rcases ha with ha | ha <;> simp [ha]

theorem mem_download_acts (d : Dependency) (p : String) (w : World) :
    ∀ a ∈ (download d p w).acts,
      a = Action.makedirs g_pkg_path ∨
        a = Action.download (d.http_download_url.getD noStr) p := by
  intro a ha
  by_cases h : truthyStr d.http_download_url
  · by_cases h2 : w.downloadOk (d.http_download_url.getD noStr)
    · simp [download, h, h2] at ha
      rcases ha with ha | ha <;> simp [ha]
    · simp [download, h, h2] at ha
      rcases ha with ha | ha <;> simp [ha]
  · simp [download, h] at ha

theorem mem_uncompress_acts (d : Dependency) (p : String) (w : World) :
    ∀ a ∈ (uncompress d p w).acts,
      a = Action.makedirs d.src_dir ∨ ∃ f : Fmt, a = Action.extract p f d.src_dir := by
  intro a ha
  by_cases h : pathExists w p
  · rcases hf : detectFmt p with _ | f
    · simp [uncompress, h, hf] at ha
      simp [ha]
    · by_cases h2 : w.extractOk p
      · simp [uncompress, h, hf, h2] at ha
        rcases ha with ha | ha
        · simp [ha]
        · exact Or.inr ⟨f, ha⟩
      · simp [uncompress, h, hf, h2] at ha
        rcases ha with ha | ha
        · simp [ha]
        · exact Or.inr ⟨f, ha⟩
  · simp [uncompress, h] at ha

theorem build_mem_resolve (d : Dependency) (w : World) (a : Action)
    (ha : a ∈ (Dependency.resolve d w).acts) (hb : a.isBuild = true) :
    a = Action.build d.build_command d.src_dir (injectedEnv d) := by
  cases hsk : canSkipB d w
  · by_cases hg : truthyStr d.git_source_url
    · rw [resolve_git_eq d w hsk hg] at ha
      by_cases hok : (gitClone d w).ok
      · simp only [hok, Bool.not_true, if_false, Bool.false_eq_true] at ha
        rcases List.mem_append.mp ha with h | h
        · rcases mem_gitClone_acts d w a h with h1 | h1 <;>
            (rw [h1] at hb; simp [Action.isBuild] at hb)
        · rcases mem_buildStep_acts d (gitClone d w).w a h with h1 | h1
          · rw [h1] at hb
            simp [Action.isBuild] at hb
          · exact h1
      · simp only [Bool.not_eq_true] at hok
        simp only [hok, Bool.not_false, if_true] at ha
        rcases mem_gitClone_acts d w a ha with h1 | h1 <;>
          (rw [h1] at hb; simp [Action.isBuild] at hb)
    · have hg0 : truthyStr d.git_source_url = false := by simpa using hg
      rcases hpm : d.pkg_path with _ | p
      · rw [resolve_none_eq d w hsk hg0 hpm] at ha
        simp at ha
      · rw [resolve_archive_eq d w p hsk hg0 hpm] at ha
        by_cases hex : pathExists w p
        · simp only [hex, Bool.not_true, if_false, Bool.false_eq_true] at ha
          by_cases huok : (uncompress d p w).ok
          · simp only [huok, Bool.not_true, Bool.false_eq_true, if_false,
              List.nil_append] at ha
            rcases List.mem_append.mp ha with h | h
            · rcases mem_uncompress_acts d p w a h with h1 | ⟨f, h1⟩ <;>
                (rw [h1] at hb; simp [Action.isBuild] at hb)
            · rcases mem_buildStep_acts d (uncompress d p w).w a h with h1 | h1
              · rw [h1] at hb
                simp [Action.isBuild] at hb
              · exact h1
          · simp only [Bool.not_eq_true] at huok
            simp only [huok, Bool.not_false, if_true, List.nil_append] at ha
            rcases mem_uncompress_acts d p w a ha with h1 | ⟨f, h1⟩ <;>
              (rw [h1] at hb; simp [Action.isBuild] at hb)
        · have hex0 : pathExists w p = false := by simpa using hex
          simp only [hex0, Bool.not_false, if_true] at ha
          by_cases hdok : (download d p w).ok
          · simp only [hdok, Bool.not_true, Bool.false_eq_true, if_false] at ha
            by_cases huok : (uncompress d p (download d p w).w).ok
            · simp only [huok, Bool.not_true, Bool.false_eq_true, if_false] at ha
              rcases List.mem_append.mp ha with h | h
              · rcases List.mem_append.mp h with h2 | h2
                · rcases mem_download_acts d p w a h2 with h1 | h1 <;>
                    (rw [h1] at hb; simp [Action.isBuild] at hb)
                · rcases mem_uncompress_acts d p (download d p w).w a h2 with h1 | ⟨f, h1⟩ <;>
                    (rw [h1] at hb; simp [Action.isBuild] at hb)
              · rcases mem_buildStep_acts d (uncompress d p (download d p w).w).w a h
                  with h1 | h1
                · rw [h1] at hb
                  simp [Action.isBuild] at hb
                · exact h1
            · simp only [Bool.not_eq_true] at huok
              simp only [huok, Bool.not_false, if_true] at ha
              rcases List.mem_append.mp ha with h | h
              · rcases mem_download_acts d p w a h with h1 | h1 <;>
                  (rw [h1] at hb; simp [Action.isBuild] at hb)
              · rcases mem_uncompress_acts d p (download d p w).w a h with h1 | ⟨f, h1⟩ <;>
                  (rw [h1] at hb; simp [Action.isBuild] at hb)
          · simp only [Bool.not_eq_true] at hdok
            simp only [hdok, Bool.not_false, if_true] at ha
            rcases mem_download_acts d p w a ha with h1 | h1 <;>
              (rw [h1] at hb; simp [Action.isBuild] at hb)
  · rw [resolve_skip_eq d w hsk] at ha
    simp at ha

/-- C4: whenever the build step runs (a build action appears in the trace of
`resolve`), the command is `build_command`, the working directory is
`source_directory`, and the environment is the ambient environment updated
with exactly the four variables DST_PATH, SRC_FILE_PATH, PKG_NAME and
RESOLVED_PATH, bound to the destination directory, the source directory,
the package name and the shared resolved root; every other key is looked up
unchanged in the ambient environment. -/
theorem build_env_contract (d : Dependency) (w : World) (cmd cwd : String)
    (upd : List (String × String))
    (h : Action.build cmd cwd upd ∈ (Dependency.resolve d w).acts) :
    cmd = d.build_command ∧ cwd = d.src_dir ∧ upd = injectedEnv d ∧
      ∀ base : String → Option String,
        applyUpd upd base keyDst = some d.dest_dir ∧
        applyUpd upd base keySrc = some d.src_dir ∧
        applyUpd upd base keyPkg = some d.pkg_name ∧
        applyUpd upd base keyResolved = some g_resolved_path ∧
        ∀ k : String, k ≠ keyDst → k ≠ keySrc → k ≠ keyPkg → k ≠ keyResolved →
          applyUpd upd base k = base k := by
  have he := build_mem_resolve d w (Action.build cmd cwd upd) h rfl
  have hc : cmd = d.build_command := by injection he
  have hw : cwd = d.src_dir := by
    injection he with h1 h2 h3
  have hu : upd = injectedEnv d := by
    injection he with h1 h2 h3
  subst hc
  subst hw
  subst hu
  refine ⟨rfl, rfl, rfl, ?_⟩
  intro base
  refine ⟨?_, ?_, ?_, ?_, ?_⟩
  · simp [applyUpd, injectedEnv, List.lookup]
  · simp [applyUpd, injectedEnv, List.lookup, keySrc, keyDst]
  · simp [applyUpd, injectedEnv, List.lookup, keyPkg, keyDst, keySrc]
  · simp [applyUpd, injectedEnv, List.lookup, keyResolved, keyDst, keySrc, keyPkg]
  · intro k h1 h2 h3 h4
    have e1 : (k == keyDst) = false := beq_eq_false_iff_ne.mpr h1
    have e2 : (k == keySrc) = false := beq_eq_false_iff_ne.mpr h2
    have e3 : (k == keyPkg) = false := beq_eq_false_iff_ne.mpr h3
    have e4 : (k == keyResolved) = false := beq_eq_false_iff_ne.mpr h4
    simp [applyUpd, injectedEnv, List.lookup, e1, e2, e3, e4]

/-- Witness for C4: the concrete build action of a successful git-based
resolution satisfies the contract. -/
theorem build_env_contract_witness :
    cmdB = gitDep.build_command ∧ gitDep.src_dir = gitDep.src_dir ∧
      injectedEnv gitDep = injectedEnv gitDep ∧
      ∀ base : String → Option String,
        applyUpd (injectedEnv gitDep) base keyDst = some gitDep.dest_dir ∧
        applyUpd (injectedEnv gitDep) base keySrc = some gitDep.src_dir ∧
        applyUpd (injectedEnv gitDep) base keyPkg = some gitDep.pkg_name ∧
        applyUpd (injectedEnv gitDep) base keyResolved = some g_resolved_path ∧
        ∀ k : String, k ≠ keyDst → k ≠ keySrc → k ≠ keyPkg → k ≠ keyResolved →
          applyUpd (injectedEnv gitDep) base k = base k :=
  build_env_contract gitDep (mkWorld []) cmdB gitDep.src_dir (injectedEnv gitDep)
    (by decide)

theorem gitClone_no_build (d : Dependency) (w : World) :
    hasBuild (gitClone d w).acts = false := by
  by_cases h : truthyStr d.git_source_url
  · by_cases h2 : (w.run (cloneCmd d) == 0) = true
    · simp [gitClone, h, h2, hasBuild, Action.isBuild]
    · simp [gitClone, h, h2, hasBuild, Action.isBuild]
  · simp [gitClone, h, hasBuild]

theorem clone_mem_gitClone (d : Dependency) (w : World)
    (hg : truthyStr d.git_source_url = true) :
    Action.clone (d.git_source_url.getD noStr) d.src_dir ∈ (gitClone d w).acts := by
  by_cases h2 : (w.run (cloneCmd d) == 0) = true
  · simp [gitClone, hg, h2]
  · simp [gitClone, hg, h2]

theorem gitClone_ok_run (d : Dependency) (w : World)
    (hg : truthyStr d.git_source_url = true) (hok : (gitClone d w).ok = true) :
    w.run (cloneCmd d) = 0 := by
  by_cases h2 : (w.run (cloneCmd d) == 0) = true
  · simpa using h2
  · rw [gitClone] at hok
    simp [hg, h2] at hok

/-- C6: for a descriptor with a truthy `git_source_url` that is not skipped,
the trace contains the clone of the repository into the source directory
and contains no download and no extraction, whatever the other fields hold;
and when the clone command exits non-zero the build step is never invoked
and the run still returns normally. -/
theorem git_path (d : Dependency) (w : World)
    (hg : truthyStr d.git_source_url = true) (hsk : canSkipB d w = false) :
    (∀ a ∈ (Dependency.resolve d w).acts, a.isDownload = false ∧ a.isExtract = false) ∧
    Action.clone (d.git_source_url.getD noStr) d.src_dir ∈ (Dependency.resolve d w).acts ∧
    (w.run (cloneCmd d) ≠ 0 →
      hasBuild (Dependency.resolve d w).acts = false ∧
      (Dependency.resolve d w).result = Except.ok ()) := by
  rw [resolve_git_eq d w hsk hg]
  by_cases hok : (gitClone d w).ok
  · simp only [hok, Bool.not_true, Bool.false_eq_true, if_false]
    refine ⟨?_, ?_, ?_⟩
    · intro a ha
      rcases List.mem_append.mp ha with h | h
      · rcases mem_gitClone_acts d w a h with h1 | h1 <;>
          simp [h1, Action.isDownload, Action.isExtract]
      · rcases mem_buildStep_acts d (gitClone d w).w a h with h1 | h1 <;>
          simp [h1, Action.isDownload, Action.isExtract]
    · exact List.mem_append.mpr (Or.inl (clone_mem_gitClone d w hg))
    · intro hrun
      exact absurd (gitClone_ok_run d w hg hok) hrun
  · have hok0 : (gitClone d w).ok = false := by simpa using hok
    simp only [hok0, Bool.not_false, if_true]
    refine ⟨?_, clone_mem_gitClone d w hg, fun _ => ⟨gitClone_no_build d w, by trivial⟩⟩
    intro a ha
    rcases mem_gitClone_acts d w a ha with h1 | h1 <;>
      simp [h1, Action.isDownload, Action.isExtract]

/-- Witness for C6: a concrete git-based descriptor in a world where every
shell command fails: the clone is attempted, nothing is downloaded or
extracted, and no build is attempted. -/
theorem git_path_witness :
    (∀ a ∈ (Dependency.resolve gitDep wCloneFail).acts,
      a.isDownload = false ∧ a.isExtract = false) ∧
    Action.clone (gitDep.git_source_url.getD noStr) gitDep.src_dir ∈
      (Dependency.resolve gitDep wCloneFail).acts ∧
    (wCloneFail.run (cloneCmd gitDep) ≠ 0 →
      hasBuild (Dependency.resolve gitDep wCloneFail).acts = false ∧
      (Dependency.resolve gitDep wCloneFail).result = Except.ok ()) :=
  git_path gitDep wCloneFail (by decide) (by decide)

theorem hasDownload_append (a b : List Action) :
    hasDownload (a ++ b) = (hasDownload a || hasDownload b) := by
  simp [hasDownload]

theorem uncompress_no_download (d : Dependency) (p : String) (w : World) :
    hasDownload (uncompress d p w).acts = false := by
  by_cases h : pathExists w p
  · rcases hf : detectFmt p with _ | f
    · simp [uncompress, h, hf, hasDownload, Action.isDownload]
    · by_cases h2 : w.extractOk p
      · simp [uncompress, h, hf, h2, hasDownload, Action.isDownload]
      · simp [uncompress, h, hf, h2, hasDownload, Action.isDownload]
  · simp [uncompress, h, hasDownload]

theorem buildStep_no_download (d : Dependency) (w : World) :
    hasDownload (buildStep d w).acts = false := by
  by_cases h : (w.run d.build_command == 0) = true
  · simp [buildStep, h, hasDownload, Action.isDownload]
  · simp [buildStep, h, hasDownload, Action.isDownload]

theorem uncompressMsg_mem (d : Dependency) (p : String) (w : World) :
    uncompressMsg d.pkg_name p d.src_dir ∈ (uncompress d p w).log := by
  by_cases h : pathExists w p
  · rcases hf : detectFmt p with _ | f
    · simp [uncompress, h, hf]
    · by_cases h2 : w.extractOk p
      · simp [uncompress, h, hf, h2]
      · simp [uncompress, h, hf, h2]
  · simp [uncompress, h]

theorem download_mem (d : Dependency) (p : String) (w : World)
    (h : truthyStr d.http_download_url = true) :
    Action.download (d.http_download_url.getD noStr) p ∈ (download d p w).acts := by
  by_cases h2 : w.downloadOk (d.http_download_url.getD noStr)
  · simp [download, h, h2]
  · simp [download, h, h2]

theorem download_noop (d : Dependency) (p : String) (w : World)
    (h : truthyStr d.http_download_url = false) :
    download d p w = { ok := true, w := w, log := [], acts := [] } := by
  simp [download, h]

/-- C7: on the archive-based path of a descriptor that is not skipped, the
download step is attempted exactly when no file exists at the archive path:
a pre-existing archive yields a trace with no download action in which
extraction proceeds directly; when the file is absent and a download URL is
configured the download action appears in the trace; and when the file is
absent and no URL is configured nothing is downloaded, the failure surfaces
at extraction as the missing-source log line, no build is invoked and the
run returns normally. -/
theorem archive_path (d : Dependency) (w : World) (p : String)
    (hg : truthyStr d.git_source_url = false) (hp : d.pkg_path = some p)
    (hsk : canSkipB d w = false) :
    (pathExists w p = true →
      hasDownload (Dependency.resolve d w).acts = false ∧
        uncompressMsg d.pkg_name p d.src_dir ∈ (Dependency.resolve d w).log) ∧
    (pathExists w p = false → truthyStr d.http_download_url = true →
      Action.download (d.http_download_url.getD noStr) p ∈
        (Dependency.resolve d w).acts) ∧
    (pathExists w p = false → truthyStr d.http_download_url = false →
      hasDownload (Dependency.resolve d w).acts = false ∧
        srcNotFoundMsg d.pkg_name p ∈ (Dependency.resolve d w).log ∧
        hasBuild (Dependency.resolve d w).acts = false ∧
        (Dependency.resolve d w).result = Except.ok ()) := by
  rw [resolve_archive_eq d w p hsk hg hp]
  refine ⟨?_, ?_, ?_⟩
  · intro hex
    have hm := uncompressMsg_mem d p w
    by_cases huok : (uncompress d p w).ok
    · simp only [hex, Bool.not_true, Bool.false_eq_true, if_false, huok,
        List.nil_append]
      constructor
      · simp [hasDownload_append, uncompress_no_download, buildStep_no_download]
      · simp [List.mem_append]
        tauto
    · have huok0 : (uncompress d p w).ok = false := by simpa using huok
      simp only [hex, Bool.not_true, Bool.false_eq_true, if_false, huok0,
        Bool.not_false, if_true, List.nil_append]
      constructor
      · simp [uncompress_no_download]
      · simp [List.mem_append]
        tauto
  · intro hex hurl
    have hm := download_mem d p w hurl
    simp only [hex, Bool.not_false, if_true]
    by_cases hdok : (download d p w).ok
    · by_cases huok : (uncompress d p (download d p w).w).ok
      · simp only [hdok, Bool.not_true, Bool.false_eq_true, if_false, huok]
        simp [List.mem_append]
        tauto
      · have huok0 : (uncompress d p (download d p w).w).ok = false := by simpa using huok
        simp only [hdok, Bool.not_true, Bool.false_eq_true, if_false, huok0,
          Bool.not_false, if_true]
        simp [List.mem_append]
        tauto
    · have hdok0 : (download d p w).ok = false := by simpa using hdok
      simp only [hdok0, Bool.not_false, if_true]
      exact hm
  · intro hex hurl
    have hdl := download_noop d p w hurl
    rw [hdl]
    simp only [hex, Bool.not_false, if_true]
    have hu : uncompress d p w =
        { ok := false, w := w
          log := [uncompressMsg d.pkg_name p d.src_dir] ++ [srcNotFoundMsg d.pkg_name p]
          acts := [] } := by
      simp [uncompress, hex]
    simp [hu, hasDownload, hasBuild, List.mem_append]

/-- Witness for C7: a concrete archive-based descriptor in a world where
the archive is absent: the download action appears in the trace. -/
theorem archive_path_witness :
    Action.download (tgzDep.http_download_url.getD noStr) (joinPath g_pkg_path tgzFile) ∈
      (Dependency.resolve tgzDep (mkWorld [])).acts :=
  (archive_path tgzDep (mkWorld []) (joinPath g_pkg_path tgzFile) (by decide) (by decide)
    (by decide)).2.1 (by decide) (by decide)

theorem resolve_no_exception (d : Dependency) (w : World)
    (h : truthyStr d.git_source_url = true ∨ d.pkg_path ≠ none) :
    (Dependency.resolve d w).result = Except.ok () := by
  cases hsk : canSkipB d w
  · by_cases hg : truthyStr d.git_source_url
    · rw [resolve_git_eq d w hsk hg]
      by_cases hok : (gitClone d w).ok
      · simp [hok]
      · have hok0 : (gitClone d w).ok = false := by simpa using hok
        simp [hok0]
    · have hg0 : truthyStr d.git_source_url = false := by simpa using hg
      rcases hpm : d.pkg_path with _ | p
      · rcases h with h | h
        · rw [hg0] at h
          cases h
        · exact absurd hpm h
      · rw [resolve_archive_eq d w p hsk hg0 hpm]
        by_cases hex : pathExists w p
        · by_cases huok : (uncompress d p w).ok
          · simp [hex, huok]
          · have huok0 : (uncompress d p w).ok = false := by simpa using huok
            simp [hex, huok0]
        · have hex0 : pathExists w p = false := by simpa using hex
          by_cases hdok : (download d p w).ok
          · by_cases huok : (uncompress d p (download d p w).w).ok
            · simp [hex0, hdok, huok]
            · have huok0 : (uncompress d p (download d p w).w).ok = false := by
                simpa using huok
              simp [hex0, hdok, huok0]
          · have hdok0 : (download d p w).ok = false := by simpa using hdok
            simp [hex0, hdok0]
  · rw [resolve_skip_eq d w hsk]

theorem runOne_ok (k : Kwargs) (w : World) (h : wellFormed k = true) :
    (runOne k w).err = none ∧
      ∃ r : RunR, (runOne k w).out = some r ∧ r.result = Except.ok () := by
  have h3 : k.pkg_name.isSome = true ∧ k.build_command.isSome = true ∧
      (truthyStr k.git_source_url || truthyStr k.pkg_file) = true := by
    simpa [wellFormed, Bool.and_eq_true, and_assoc] using h
  obtain ⟨hn, hb, hgf⟩ := h3
  rcases hkn : k.pkg_name with _ | n
  · rw [hkn] at hn
    cases hn
  rcases hkb : k.build_command with _ | b
  · rw [hkb] at hb
    cases hb
  have hmk : mkDependency k = Except.ok (initDependency n b k.version k.pkg_file
      k.check_files k.http_download_url k.git_source_url) := by
    simp [mkDependency, hkn, hkb]
  have hres : (Dependency.resolve (initDependency n b k.version k.pkg_file
      k.check_files k.http_download_url k.git_source_url) w).result = Except.ok () := by
    apply resolve_no_exception
    rcases Bool.or_eq_true _ _ |>.mp hgf with hg | hf
    · exact Or.inl hg
    · right
      simp [initDependency, hf]
  unfold runOne
  rw [hmk]
  simp only []
  rw [hres]
  simp [hres]

theorem runBatch_ok (ks : List Kwargs) : ∀ w : World,
    (∀ k ∈ ks, wellFormed k = true) →
    (runBatch ks w).err = none ∧ (runBatch ks w).outs.length = ks.length ∧
      ∀ r ∈ (runBatch ks w).outs, r.result = Except.ok () := by
  induction ks with
  | nil =>
    intro w _
    simp [runBatch]
  | cons k ks ih =>
    intro w h
    obtain ⟨he, r, hr, hres⟩ := runOne_ok k w (h k (by simp))
    obtain ⟨he2, hlen2, hall2⟩ := ih (runOne k w).w (fun k2 hk2 => h k2 (by simp [hk2]))
    unfold runBatch
    simp only [he, hr, Option.toList_some, List.singleton_append]
    refine ⟨he2, by simp [hlen2], ?_⟩
    intro r2 hr2
    rcases List.mem_cons.mp hr2 with h1 | h1
    · rw [h1]
      exact hres
    · exact hall2 r2 h1

/-- C5: for every batch of descriptors that each name a package, a build
command and at least one source, and for every outcome of the external
world (failing downloads, failing clones, missing or unsupported archives,
non-zero build exits), no exception escapes any package: the batch
processes every descriptor, producing one normally-returning per-package
run for each. -/
theorem batch_resilience (ks : List Kwargs) (w : World)
    (h : ∀ k ∈ ks, wellFormed k = true) :
    (runBatch ks w).err = none ∧ (runBatch ks w).outs.length = ks.length ∧
      ∀ r ∈ (runBatch ks w).outs, r.result = Except.ok () :=
  runBatch_ok ks w h

/-- Witness for C5: the concrete three-package batch in which exactly the
second package's build command exits non-zero: all three packages are
processed, packages 1 and 3 log a successful build and package 2 logs the
failure. -/
theorem batch_resilience_witness :
    ((runBatch batch3 wBatch).err = none ∧
      (runBatch batch3 wBatch).outs.length = batch3.length ∧
      ∀ r ∈ (runBatch batch3 wBatch).outs, r.result = Except.ok ()) ∧
    buildOkMsg name1 ∈ ((runBatch batch3 wBatch).outs.map RunR.log).flatten ∧
    buildFailMsg name2 1 ∈ ((runBatch batch3 wBatch).outs.map RunR.log).flatten ∧
    buildOkMsg name3 ∈ ((runBatch batch3 wBatch).outs.map RunR.log).flatten :=
  ⟨batch_resilience batch3 wBatch (by decide), by decide, by decide, by decide⟩

/-- C8: a descriptor with no git URL and no archive file name (so that
`pkg_path` is `None`) that reaches the acquisition phase does not produce a
logged per-package failure: the archive-existence check applied to the
`None` path raises `TypeError`, which escapes `resolve` and aborts the
batch loop, leaving every subsequent descriptor unprocessed. -/
theorem none_archive_raises (k : Kwargs) (ks : List Kwargs) (w : World) (d : Dependency)
    (hk : mkDependency k = Except.ok d)
    (hg : truthyStr d.git_source_url = false) (hp : d.pkg_path = none)
    (hs : canSkipB d w = false) :
    (Dependency.resolve d w).result = Except.error PyError.typeError ∧
    (runBatch (k :: ks) w).err = some PyError.typeError ∧
    (runBatch (k :: ks) w).outs.length = 1 := by
  have hres := resolve_none_eq d w hs hg hp
  have hr : (Dependency.resolve d w).result = Except.error PyError.typeError := by
    rw [hres]
  have hone : runOne k w =
      { w := (Dependency.resolve d w).w, out := some (Dependency.resolve d w)
        err := some PyError.typeError } := by
    unfold runOne
    rw [hk]
    simp [hr]
  refine ⟨hr, ?_, ?_⟩ <;>
    · unfold runBatch
      simp [hone]

/-- Witness for C8: the concrete descriptor with neither source reference:
its resolution raises, and a two-package batch starting with it processes
only the first package. -/
theorem none_archive_raises_witness :
    (Dependency.resolve depNone (mkWorld [])).result = Except.error PyError.typeError ∧
    (runBatch (kNone :: [kPlain]) (mkWorld [])).err = some PyError.typeError ∧
    (runBatch (kNone :: [kPlain]) (mkWorld [])).outs.length = 1 :=
  none_archive_raises kNone [kPlain] (mkWorld []) depNone rfl (by decide) (by decide)
    (by decide)

end AsioSrt
